import Mathlib

/-!
Shallow embedding of `.github/update_reviewers.py`, a one-shot script that
assigns reviewers to a pull request from a label-to-reviewers configuration
and submits one `create_review_request` call to the hosting platform.

The pure selection logic (lines 11-18 and 28-40 of the script) is embedded
as total functions on `Finset String`; the effectful shell (lines 21-52) is
embedded as a function from an explicit model of the external collaborators
(`repo.get_pull`, `create_review_request`) to an observable trace.
-/

namespace UpdateReviewers

/-- A pull-request label; the script only reads its `name` attribute. -/
structure Label where
  name : String
deriving DecidableEq

/-- A platform user; the script only reads `login`. -/
structure User where
  login : String
deriving DecidableEq

/-- Snapshot of the pull request returned by `repo.get_pull`. -/
structure PullRequest where
  user : User
  labels : List Label
deriving DecidableEq

/-- The yaml configuration: a mapping from label name (or `"default"`) to a
list of reviewer entry strings, modelled as an association list with the
first-match lookup of a Python dict. -/
abbrev Config := List (String × List String)

/-- Membership test and indexing of the configuration dict:
`label.name in config` is `(Config.find config label.name).isSome` and
`config[label.name]` is the value it carries. -/
def Config.find (c : Config) (k : String) : Option (List String) :=
  List.lookup k c

/-- Python `reviewer.startswith("@")`, specialised to the one-character
prefix the script uses: true iff the string is nonempty and its first
character is `'@'`. Stated on `String.data` so that it evaluates in the
kernel. -/
def startsWithSigil (s : String) : Bool :=
  s.data.head? == some '@'

/-- Python `reviewer[1:]`: the entry minus its first character. -/
def dropSigil (s : String) : String :=
  s.drop 1

/-- The two sets the script accumulates (`reviewers`, `team_reviewers`). -/
structure ReviewerSets where
  reviewers : Finset String
  team_reviewers : Finset String
deriving DecidableEq

/-- One iteration of the `for reviewer in new_entries` loop of
`add_reviewers` (lines 14-18): classify the entry by its leading sigil. -/
def addEntry (s : ReviewerSets) (reviewer : String) : ReviewerSets :=
  if startsWithSigil reviewer then
    ReviewerSets.mk s.reviewers (insert (dropSigil reviewer) s.team_reviewers)
  else
    ReviewerSets.mk (insert reviewer s.reviewers) s.team_reviewers

/-- Function `add_reviewers(reviewers, team_reviewers, new_entries)`
(lines 11-18): mutates the two sets by classifying each entry in order;
modelled as a fold that returns the updated sets. -/
def add_reviewers (s : ReviewerSets) (new_entries : List String) : ReviewerSets :=
  new_entries.foldl addEntry s

/-- Body of the label loop (lines 33-34): merge the label's entries when
its name is a key of the configuration, otherwise leave the sets alone. -/
def labelStep (config : Config) (s : ReviewerSets) (label : Label) : ReviewerSets :=
  match Config.find config label.name with
  | some entries => add_reviewers s entries
  | none => s

/-- Lines 32-34 of `update_reviewers`: the label loop, starting from the two
empty sets of lines 29-30. -/
def labelLoop (config : Config) (labels : List Label) : ReviewerSets :=
  labels.foldl (labelStep config) (ReviewerSets.mk ∅ ∅)

/-- Lines 36-37 of `update_reviewers`: unconditional merge of the
`"default"` entries when that key is present. -/
def defaultMerge (config : Config) (s : ReviewerSets) : ReviewerSets :=
  match Config.find config "default" with
  | some entries => add_reviewers s entries
  | none => s

/-- Lines 28-40 of `update_reviewers`: the pure reviewer-selection
computation, from configuration, pull-request labels and author to the two
sets. Lines 39-40 remove the author from `reviewers` when present;
`Finset.erase` is the identity when the author is absent, which matches the
`if pull_request_author in reviewers: reviewers.remove(...)` guard. -/
def selectReviewers (config : Config) (labels : List Label) (author : String) :
    ReviewerSets :=
  let s := defaultMerge config (labelLoop config labels)
  ReviewerSets.mk (s.reviewers.erase author) s.team_reviewers

/-- Outcome of one `update_reviewers` invocation: either a return value
that `__main__` passes to `sys.exit`, or an uncaught Python exception. -/
inductive Outcome
  | exits (code : Nat)
  | crash (exn : String)
deriving DecidableEq

/-- Behaviour of the external collaborators for one invocation: the result
of `repo.get_pull` (not-found modelled as `none`), and the outcome of
`create_review_request` (`Except.error` carries the `GithubException`
detail string). -/
structure World where
  getPull : Option PullRequest
  apiResult : Except String Unit

/-- Observable trace of one `update_reviewers` call: the lines written to
stderr and stdout, the `create_review_request` calls attempted with their
argument lists, and the outcome. -/
structure Trace where
  stderrLines : List String
  stdoutLines : List String
  calls : List (List String × List String)
  outcome : Outcome
deriving DecidableEq

/-- Function `update_reviewers(config, repo, pr_id)` (lines 21-52). When
`get_pull` does not resolve, the code runs
`sys.stderr.writable(f"Unknown PR ...")`; `writable()` is a capability
query that takes no arguments and writes nothing, so the call raises
`TypeError` before the `return 1` on line 26 is reached: no diagnostic line
is emitted and no API call is made. Otherwise the two sets are computed,
converted to lists (modelled by sorting, Python's set iteration order being
unspecified), announced on stdout, and `create_review_request` is
attempted; a `GithubException` is caught and reported on stderr with the
underlying detail, yielding return value 1, while success yields 0. -/
def update_reviewers (config : Config) (w : World) (prId : Nat) : Trace :=
  match w.getPull with
  | none =>
      Trace.mk [] [] [] (Outcome.crash "TypeError: writable() takes no arguments (1 given)")
  | some pull_request =>
      let author := pull_request.user.login
      let sets := selectReviewers config pull_request.labels author
      let reviewers := sets.reviewers.sort (· ≤ ·)
      let team_reviewers := sets.team_reviewers.sort (· ≤ ·)
      let announce :=
        "Attempting to assign reviewers (" ++ toString reviewers ++
          ") and team_reviewers (" ++ toString team_reviewers ++ ")"
      match w.apiResult with
      | Except.ok _ =>
          Trace.mk [] [announce] [(reviewers, team_reviewers)] (Outcome.exits 0)
      | Except.error e =>
          Trace.mk
            ["Cannot assign review request for PR #" ++ toString prId ++ ": " ++ e ++ "\n"]
            [announce] [(reviewers, team_reviewers)] (Outcome.exits 1)

/-- Process exit status resulting from `sys.exit(update_reviewers(...))`:
the returned code on a normal return; Python terminates with status 1 on an
uncaught exception. -/
def processExitCode (t : Trace) : Nat :=
  match t.outcome with
  | Outcome.exits c => c
  | Outcome.crash _ => 1

/-- All entries the selector merges for a given configuration and label
list: the entries of each matching label in order, then the `"default"`
entries (labels and `"default"` keys that are absent contribute `[]`). -/
def mergedEntries (config : Config) (labels : List Label) : List String :=
  labels.flatMap (fun label => (Config.find config label.name).getD []) ++
    (Config.find config "default").getD []

/-- The individual logins a list of entries contributes. -/
def individualSet (entries : List String) : Finset String :=
  (entries.filter (fun e => !startsWithSigil e)).toFinset

/-- The team names a list of entries contributes. -/
def teamSet (entries : List String) : Finset String :=
  ((entries.filter (fun e => startsWithSigil e)).map dropSigil).toFinset

/-- Unfolding of `add_reviewers` on a cons cell. -/
theorem add_reviewers_cons (s : ReviewerSets) (e : String) (es : List String) :
    add_reviewers s (e :: es) = add_reviewers (addEntry s e) es :=
  rfl

/-- Processing a concatenation of entry lists processes them in turn. -/
theorem add_reviewers_append (s : ReviewerSets) (l1 l2 : List String) :
    add_reviewers s (l1 ++ l2) = add_reviewers (add_reviewers s l1) l2 := by
  simp [add_reviewers, List.foldl_append]

/-- Closed form of the `reviewers` component of `add_reviewers`: the prior
set plus every entry whose first character is not the sigil. -/
theorem add_reviewers_reviewers_eq (s : ReviewerSets) (entries : List String) :
    (add_reviewers s entries).reviewers = s.reviewers ∪ individualSet entries := by
  induction entries generalizing s with
  | nil => simp [add_reviewers, individualSet]
  | cons e es ih =>
      rw [add_reviewers_cons, ih]
      cases h : startsWithSigil e with
      | true => simp [addEntry, h, individualSet, List.filter_cons]
      | false =>
          simp [addEntry, h, individualSet, List.filter_cons, List.toFinset_cons,
            Finset.insert_union, Finset.union_insert]

/-- Closed form of the `team_reviewers` component of `add_reviewers`: the
prior set plus the sigil-stripped name of every entry whose first character
is the sigil. -/
theorem add_reviewers_team_eq (s : ReviewerSets) (entries : List String) :
    (add_reviewers s entries).team_reviewers = s.team_reviewers ∪ teamSet entries := by
  induction entries generalizing s with
  | nil => simp [add_reviewers, teamSet]
  | cons e es ih =>
      rw [add_reviewers_cons, ih]
      cases h : startsWithSigil e with
      | true =>
          simp [addEntry, h, teamSet, List.filter_cons, List.toFinset_cons,
            Finset.insert_union, Finset.union_insert]
      | false => simp [addEntry, h, teamSet, List.filter_cons]

/-- The label-loop body merges exactly the entries the configuration holds
for the label, `[]` when the label is not a key. -/
theorem labelStep_eq (config : Config) (s : ReviewerSets) (label : Label) :
    labelStep config s label =
      add_reviewers s ((Config.find config label.name).getD []) := by
  unfold labelStep
  cases Config.find config label.name <;> rfl

/-- The label loop from any starting state merges the concatenation of all
matched labels' entries. -/
theorem labelLoop_foldl_eq (config : Config) (labels : List Label) (init : ReviewerSets) :
    labels.foldl (labelStep config) init =
      add_reviewers init
        (labels.flatMap fun label => (Config.find config label.name).getD []) := by
  induction labels generalizing init with
  | nil => rfl
  | cons l ls ih =>
      rw [List.foldl_cons, labelStep_eq, List.flatMap_cons, add_reviewers_append]
      exact ih _

/-- The default merge is `add_reviewers` on the `"default"` entries, `[]`
when the key is absent. -/
theorem defaultMerge_eq (config : Config) (s : ReviewerSets) :
    defaultMerge config s =
      add_reviewers s ((Config.find config "default").getD []) := by
  unfold defaultMerge
  cases Config.find config "default" <;> rfl

/-- Closed form of the whole selector: the non-sigil merged entries minus
the author, and the sigil-stripped merged entries. -/
theorem selectReviewers_eq_mk (config : Config) (labels : List Label) (author : String) :
    selectReviewers config labels author =
      ReviewerSets.mk ((individualSet (mergedEntries config labels)).erase author)
        (teamSet (mergedEntries config labels)) := by
  have hsets :
      defaultMerge config (labelLoop config labels) =
        add_reviewers (ReviewerSets.mk ∅ ∅) (mergedEntries config labels) := by
    rw [defaultMerge_eq]
    unfold labelLoop
    rw [labelLoop_foldl_eq, ← add_reviewers_append]
    rfl
  simp only [selectReviewers, hsets, add_reviewers_reviewers_eq, add_reviewers_team_eq]
  simp

/-- The `reviewers` component of the selector in closed form. -/
theorem selectReviewers_reviewers_eq (config : Config) (labels : List Label)
    (author : String) :
    (selectReviewers config labels author).reviewers =
      (individualSet (mergedEntries config labels)).erase author := by
  rw [selectReviewers_eq_mk]

/-- The `team_reviewers` component of the selector in closed form. -/
theorem selectReviewers_team_eq (config : Config) (labels : List Label)
    (author : String) :
    (selectReviewers config labels author).team_reviewers =
      teamSet (mergedEntries config labels) := by
  rw [selectReviewers_eq_mk]

/-- Membership in the individual contribution of an entry list. -/
theorem mem_individualSet (a : String) (l : List String) :
    a ∈ individualSet l ↔ a ∈ l ∧ startsWithSigil a = false := by
  simp [individualSet, List.mem_filter]

/-- Membership in the team contribution of an entry list. -/
theorem mem_teamSet (a : String) (l : List String) :
    a ∈ teamSet l ↔ ∃ e, (e ∈ l ∧ startsWithSigil e = true) ∧ dropSigil e = a := by
  simp [teamSet, List.mem_filter, List.mem_map]

/-- Prepending a label prepends its entries to the merged entry list. -/
theorem mergedEntries_cons (config : Config) (x : Label) (labels : List Label) :
    mergedEntries config (x :: labels) =
      (Config.find config x.name).getD [] ++ mergedEntries config labels := by
  simp [mergedEntries, List.flatMap_cons, List.append_assoc]

/-- Two field-wise equal reviewer-set records are equal. -/
theorem ReviewerSets.ext_eq (a b : ReviewerSets)
    (h1 : a.reviewers = b.reviewers) (h2 : a.team_reviewers = b.team_reviewers) :
    a = b := by
  cases a
  cases b
  simp_all

/-- The selector only depends on which entries are merged, not on their
multiplicity or order in the merged entry list. -/
theorem selector_entries_congr (config : Config) (author : String)
    (L1 L2 : List Label)
    (h : ∀ e, e ∈ mergedEntries config L1 ↔ e ∈ mergedEntries config L2) :
    selectReviewers config L1 author = selectReviewers config L2 author := by
  have h1 : individualSet (mergedEntries config L1) =
      individualSet (mergedEntries config L2) :=
    Finset.ext fun a => by simp [mem_individualSet, h]
  have h2 : teamSet (mergedEntries config L1) = teamSet (mergedEntries config L2) :=
    Finset.ext fun a => by simp [mem_teamSet, h]
  rw [selectReviewers_eq_mk, selectReviewers_eq_mk, h1, h2]

/-- C1: for every configuration, label list and author, the author is not
in the individual-reviewer set the selector returns — lines 39-40 erase the
author as the final step, and nothing is added afterwards. -/
theorem author_not_in_reviewers (config : Config) (labels : List Label)
    (author : String) :
    author ∉ (selectReviewers config labels author).reviewers := by
  simp [selectReviewers]

/-- C2: each entry merged by `add_reviewers` contributes by the sigil rule
and nothing else: `reviewers` gains exactly the entries whose first
character is not `@` (verbatim), and `team_reviewers` gains exactly the
sigil-stripped names of the entries whose first character is `@`. In
particular a sigil entry contributes nothing to `reviewers` and a non-sigil
entry contributes nothing to `team_reviewers`. -/
theorem add_reviewers_classification (s : ReviewerSets) (new_entries : List String) :
    (add_reviewers s new_entries).reviewers = s.reviewers ∪ individualSet new_entries ∧
    (add_reviewers s new_entries).team_reviewers = s.team_reviewers ∪ teamSet new_entries :=
  ⟨add_reviewers_reviewers_eq s new_entries, add_reviewers_team_eq s new_entries⟩

/-- C3: for every label list (the empty one included), the entries under a
present `"default"` key are merged into the output by the sigil rule: a
sigil entry puts its stripped name into `team_reviewers`, a non-sigil entry
other than the author ends up in `reviewers` (the author itself is erased
afterwards by the line 39-40 exclusion). -/
theorem default_entries_always_merged (config : Config) (labels : List Label)
    (author : String) (entries : List String)
    (hdef : Config.find config "default" = some entries)
    (e : String) (he : e ∈ entries) :
    (startsWithSigil e = true →
      dropSigil e ∈ (selectReviewers config labels author).team_reviewers) ∧
    (startsWithSigil e = false → e ≠ author →
      e ∈ (selectReviewers config labels author).reviewers) := by
  have hmem : e ∈ mergedEntries config labels := by
    unfold mergedEntries
    refine List.mem_append_right _ ?_
    rw [hdef]
    exact he
  constructor
  · intro hsig
    rw [selectReviewers_team_eq, mem_teamSet]
    exact ⟨e, ⟨hmem, hsig⟩, rfl⟩
  · intro hsig hne
    rw [selectReviewers_reviewers_eq]
    exact Finset.mem_erase.mpr ⟨hne, (mem_individualSet e _).mpr ⟨hmem, hsig⟩⟩

/-- Witness for C3, spec scenario 2: config `{"default": ["carol"]}`, empty
label set, author `"dave"` puts `"carol"` into `reviewers`. -/
theorem default_entries_always_merged_witness :
    Config.find [("default", ["carol"])] "default" = some ["carol"] ∧
    "carol" ∈ (selectReviewers [("default", ["carol"])] [] "dave").reviewers :=
  ⟨by decide,
    (default_entries_always_merged [("default", ["carol"])] [] "dave" ["carol"]
        (by decide) "carol" (by decide)).2 (by decide) (by decide)⟩

/-- C4: prepending a label that is a key of the configuration can only grow
both output sets — every reviewer and team selected without it is still
selected with it. -/
theorem selector_label_monotone (config : Config) (labels : List Label)
    (author : String) (x : Label)
    (_hx : (Config.find config x.name).isSome = true) :
    (selectReviewers config labels author).reviewers ⊆
      (selectReviewers config (x :: labels) author).reviewers ∧
    (selectReviewers config labels author).team_reviewers ⊆
      (selectReviewers config (x :: labels) author).team_reviewers := by
  constructor
  · rw [selectReviewers_reviewers_eq, selectReviewers_reviewers_eq]
    refine Finset.erase_subset_erase _ fun a ha => ?_
    rw [mem_individualSet] at ha ⊢
    rw [mergedEntries_cons, List.mem_append]
    exact ⟨Or.inr ha.1, ha.2⟩
  · rw [selectReviewers_team_eq, selectReviewers_team_eq]
    intro a ha
    rw [mem_teamSet] at ha ⊢
    obtain ⟨e, ⟨hmem, hsig⟩, hdrop⟩ := ha
    rw [mergedEntries_cons]
    exact ⟨e, ⟨List.mem_append.mpr (Or.inr hmem), hsig⟩, hdrop⟩

/-- Witness for C4 at config `{"bug": ["alice"]}`, empty label set, label
`"bug"`, author `"zed"`. -/
theorem selector_label_monotone_witness :
    (Config.find [("bug", ["alice"])] "bug").isSome = true ∧
    (selectReviewers [("bug", ["alice"])] [] "zed").reviewers ⊆
      (selectReviewers [("bug", ["alice"])] [Label.mk "bug"] "zed").reviewers :=
  ⟨by decide,
    (selector_label_monotone [("bug", ["alice"])] [] "zed" (Label.mk "bug")
        (by decide)).1⟩

/-- C5: the selector is a pure function (so identical inputs trivially give
identical outputs) with union semantics: a duplicated label changes
nothing, and two labels may be merged in either order — so an entry named
by several matching labels, or by a label and `"default"`, contributes a
single element of the output set. -/
theorem selector_union_semantics (config : Config) (labels : List Label)
    (author : String) (x y : Label) :
    selectReviewers config (x :: x :: labels) author =
      selectReviewers config (x :: labels) author ∧
    selectReviewers config (x :: y :: labels) author =
      selectReviewers config (y :: x :: labels) author := by
  constructor
  · refine selector_entries_congr config author _ _ fun e => ?_
    simp only [mergedEntries_cons, List.mem_append]
    tauto
  · refine selector_entries_congr config author _ _ fun e => ?_
    simp only [mergedEntries_cons, List.mem_append]
    tauto

/-- C6 evaluation: when `get_pull` does not resolve, the branch of lines
23-26 runs `sys.stderr.writable(f"Unknown PR ...")` — not a write — so no
diagnostic line reaches stderr, the call raises `TypeError`, and the
intended `return 1` is never executed; `create_review_request` is never
called, and the process terminates with status 1 only through the uncaught
exception. -/
theorem pr_lookup_failure_behaviour :
    (update_reviewers [("default", ["bob"])] (World.mk none (Except.ok ())) 9999).stderrLines = [] ∧
    (update_reviewers [("default", ["bob"])] (World.mk none (Except.ok ())) 9999).calls = [] ∧
    (update_reviewers [("default", ["bob"])] (World.mk none (Except.ok ())) 9999).outcome =
      Outcome.crash "TypeError: writable() takes no arguments (1 given)" ∧
    processExitCode
      (update_reviewers [("default", ["bob"])] (World.mk none (Except.ok ())) 9999) = 1 :=
  ⟨rfl, rfl, rfl, rfl⟩

/-- C7: when `create_review_request` raises, the exception is caught at the
call site (lines 42-52): the call was attempted with the two computed
lists, stderr receives one diagnostic line ending in the underlying
error's detail, and the function returns 1; when the call succeeds it
returns 0. -/
theorem api_call_error_handling (config : Config) (pr : PullRequest)
    (prId : Nat) (e : String) :
    (update_reviewers config (World.mk (some pr) (Except.error e)) prId).outcome =
      Outcome.exits 1 ∧
    (update_reviewers config (World.mk (some pr) (Except.error e)) prId).stderrLines =
      ["Cannot assign review request for PR #" ++ toString prId ++ ": " ++ e ++ "\n"] ∧
    (update_reviewers config (World.mk (some pr) (Except.error e)) prId).calls =
      [((selectReviewers config pr.labels pr.user.login).reviewers.sort (· ≤ ·),
        (selectReviewers config pr.labels pr.user.login).team_reviewers.sort (· ≤ ·))] ∧
    (update_reviewers config (World.mk (some pr) (Except.ok ())) prId).outcome =
      Outcome.exits 0 :=
  ⟨rfl, rfl, rfl, rfl⟩

/-- A label list none of whose names is a configuration key contributes no
entries. -/
theorem flatMap_entries_eq_nil (config : Config) :
    ∀ labels : List Label, (∀ l ∈ labels, Config.find config l.name = none) →
      (labels.flatMap fun label => (Config.find config label.name).getD []) = [] := by
  intro labels
  induction labels with
  | nil => intro _; rfl
  | cons l ls ih =>
      intro h
      rw [List.flatMap_cons, h l (List.mem_cons_self l ls)]
      simp only [Option.getD_none, List.nil_append]
      exact ih fun l2 hl2 => h l2 (List.mem_cons_of_mem _ hl2)

/-- C8: when no label of the pull request is a configuration key and there
is no `"default"` key, the selector returns two empty sets, and
`create_review_request` is nevertheless attempted, with two empty lists as
its arguments — whatever the API then does. -/
theorem no_match_no_default_empty (config : Config) (pr : PullRequest) (prId : Nat)
    (api : Except String Unit)
    (hlabels : ∀ l ∈ pr.labels, Config.find config l.name = none)
    (hdef : Config.find config "default" = none) :
    selectReviewers config pr.labels pr.user.login = ReviewerSets.mk ∅ ∅ ∧
    (update_reviewers config (World.mk (some pr) api) prId).calls = [([], [])] := by
  have hnil : mergedEntries config pr.labels = [] := by
    unfold mergedEntries
    rw [hdef, flatMap_entries_eq_nil config pr.labels hlabels]
    rfl
  have hsel : selectReviewers config pr.labels pr.user.login = ReviewerSets.mk ∅ ∅ := by
    rw [selectReviewers_eq_mk, hnil]
    simp [individualSet, teamSet]
  refine ⟨hsel, ?_⟩
  cases api with
  | ok u => simp [update_reviewers, hsel, Finset.sort_empty]
  | error e2 => simp [update_reviewers, hsel, Finset.sort_empty]

/-- Witness for C8, spec scenario 4: empty config, label `"bug"`, author
`"frank"` — the API call is attempted with two empty lists. -/
theorem no_match_no_default_empty_witness :
    (∀ l ∈ (PullRequest.mk (User.mk "frank") [Label.mk "bug"]).labels,
        Config.find ([] : Config) l.name = none) ∧
    Config.find ([] : Config) "default" = none ∧
    (update_reviewers []
        (World.mk (some (PullRequest.mk (User.mk "frank") [Label.mk "bug"]))
          (Except.ok ())) 7).calls = [([], [])] :=
  ⟨by decide, by decide,
    (no_match_no_default_empty [] (PullRequest.mk (User.mk "frank") [Label.mk "bug"]) 7
        (Except.ok ()) (by decide) (by decide)).2⟩

/-- C9: the self-review exclusion touches only `reviewers`: the
`team_reviewers` output does not depend on the author at all, and whenever
some merged entry is `@` followed by the author's login, the author's name
is in `team_reviewers` after selection. -/
theorem author_exclusion_frame (config : Config) (labels : List Label)
    (author : String) :
    (∀ other : String, (selectReviewers config labels author).team_reviewers =
        (selectReviewers config labels other).team_reviewers) ∧
    (∀ e, e ∈ mergedEntries config labels → startsWithSigil e = true →
        dropSigil e = author →
        author ∈ (selectReviewers config labels author).team_reviewers) := by
  constructor
  · intro other
    rw [selectReviewers_team_eq, selectReviewers_team_eq]
  · intro e hmem hsig hdrop
    rw [selectReviewers_team_eq, mem_teamSet]
    exact ⟨e, ⟨hmem, hsig⟩, hdrop⟩

/-- Witness for C9: config `{"default": ["@alice"]}` with author `"alice"`
keeps `"alice"` in `team_reviewers`. -/
theorem author_exclusion_frame_witness :
    "@alice" ∈ mergedEntries [("default", ["@alice"])] [] ∧
    "alice" ∈ (selectReviewers [("default", ["@alice"])] [] "alice").team_reviewers :=
  ⟨by decide,
    (author_exclusion_frame [("default", ["@alice"])] [] "alice").2 "@alice"
      (by decide) (by decide) (by decide)⟩

/-- C10: classification looks only at the first character and is total on
arbitrary entry strings: the entry `"@"` puts the empty string into
`team_reviewers` (and leaves `reviewers` alone), and the empty-string entry
is added verbatim to `reviewers` (leaving `team_reviewers` alone); neither
aborts the fold. -/
theorem degenerate_entries_total (s : ReviewerSets) :
    add_reviewers s ["@"] = ReviewerSets.mk s.reviewers (insert "" s.team_reviewers) ∧
    add_reviewers s [""] = ReviewerSets.mk (insert "" s.reviewers) s.team_reviewers := by
  have h1 : startsWithSigil "@" = true := by decide
  have h2 : startsWithSigil "" = false := by decide
  have h3 : dropSigil "@" = "" := by decide
  constructor
  · simp [add_reviewers, List.foldl_cons, List.foldl_nil, addEntry, h1, h3]
  · simp [add_reviewers, List.foldl_cons, List.foldl_nil, addEntry, h2]

end UpdateReviewers
